import Mathlib

/-!
Shallow embedding of the `nagle` Go package (`src/nagle.go`): a buffering
wrapper over an `io.ReadWriteCloser` that coalesces small writes (Nagle's
algorithm).  Bytes are modelled as `Nat`, Go `int` values that are compared
with possibly non-positive configuration values as `Int`.

The underlying stream is an external collaborator.  We model its observable
state (`UStream`): the bytes its `Write` has accepted so far (`ubuf`) and its
closed flag.  How many bytes a single underlying `Write` call accepts, and
which error it reports, is chosen by the environment and passed to each
operation as explicit parameters `(m, e)`; the return value of the underlying
`Close` is likewise an environment parameter `ce`.  The underlying `Read` is
modelled after `MockReadWriteCloser.Read` in `src/nagle_test.go` (a closed
stream rejects reads with `ErrClosedPipe`; otherwise `bytes.Buffer.Read`
semantics).

Real time (the flush timer and its re-arming) is not modelled; the
timer-driven background flush is modelled as a nondeterministic `timerFire`
step that may occur between operations, exactly the body of `handleFlush`
executed once after `<-nw.timer.C`.
-/

namespace Nagle

/-- Errors that can flow through the wrapper: `closedPipe` is Go's
`io.ErrClosedPipe`, `shortWrite` is `io.ErrShortWrite` (produced by
`bytes.Buffer.WriteTo` on a partial underlying write without error),
`eof` is `io.EOF`, and `ioErr k` stands for an arbitrary error value
reported by the underlying stream. -/
inductive GoErr where
  | closedPipe
  | shortWrite
  | eof
  | ioErr (code : Nat)
deriving DecidableEq, Repr

/-- Observable state of the underlying `io.ReadWriteCloser`: the bytes its
`Write` calls have accepted so far, and whether it has been closed. -/
structure UStream where
  ubuf : List Nat
  uclosed : Bool
deriving DecidableEq, Repr

/-- The `NagleWrapper` struct of `src/nagle.go`, restricted to the fields the
flush logic reads and writes: `buffer` (a `bytes.Buffer`), `bufferSize`
(a Go `int`, hence `Int`), and the `closed` flag.  The mutex serialises the
operations (we model each operation as one atomic step), `flushTimeout` and
`timer` are real-time artifacts not represented in the state. -/
structure NagleWrapper where
  buffer : List Nat
  bufferSize : Int
  closed : Bool
deriving DecidableEq, Repr

/-- `NewNagleWrapper` from `src/nagle.go`: builds the wrapper with an empty
buffer and `closed = false`.  The Go constructor performs no validation of
`bufferSize` or `flushTimeout`; both are accepted as given (`flushTimeout`
only feeds the unmodelled timer, so it does not appear in the state). -/
def NewNagleWrapper (bufferSize flushTimeout : Int) : NagleWrapper :=
  let _ := flushTimeout
  { buffer := [], bufferSize := bufferSize, closed := false }

/-- `bytes.Buffer.WriteTo` from the Go standard library, applied to a buffer
holding `buf`, where the single underlying `Write` call accepts `m` bytes and
reports error `e`.  Returns the remaining buffer contents, the byte count and
the error: on an empty buffer it resets and returns `(0, nil)`; otherwise the
accepted prefix is consumed (`b.off += m`), an underlying error is returned
as is, a partial write without error yields `io.ErrShortWrite`, and a full
write resets the buffer. -/
def bufferWriteTo (buf : List Nat) (m : Nat) (e : Option GoErr) :
    List Nat × Nat × Option GoErr :=
  if buf.length = 0 then ([], 0, none)
  else
    match e with
    | some err => (buf.drop m, m, some err)
    | none => if m = buf.length then ([], m, none) else (buf.drop m, m, some .shortWrite)

/-- `flushLocked` from `src/nagle.go`: no-op on an empty buffer, otherwise
`nw.buffer.WriteTo(nw.rwc)`.  The underlying stream receives the accepted
prefix `w.buffer.take m` of the offered chunk. -/
def flushLocked (w : NagleWrapper) (s : UStream) (m : Nat) (e : Option GoErr) :
    NagleWrapper × UStream × Nat × Option GoErr :=
  if w.buffer.length = 0 then (w, s, 0, none)
  else
    let r := bufferWriteTo w.buffer m e
    ({ w with buffer := r.1 }, { s with ubuf := s.ubuf ++ w.buffer.take m }, r.2.1, r.2.2)

/-- `Write` from `src/nagle.go`: fail with `io.ErrClosedPipe` when closed;
append `data` to the buffer; if the buffer length now reaches `bufferSize`,
return the result of `flushLocked`; otherwise stop/reset the timer (not
modelled) and return `(len(data), nil)`. -/
def NagleWrapper.write (w : NagleWrapper) (s : UStream) (data : List Nat)
    (m : Nat) (e : Option GoErr) : NagleWrapper × UStream × Nat × Option GoErr :=
  if w.closed then (w, s, 0, some .closedPipe)
  else
    let w1 : NagleWrapper := { w with buffer := w.buffer ++ data }
    if (w1.buffer.length : Int) ≥ w.bufferSize then
      flushLocked w1 s m e
    else
      (w1, s, data.length, none)

/-- `Close` from `src/nagle.go`: fail with `io.ErrClosedPipe` when already
closed; otherwise run the final `flushLocked`; on flush error return it
without marking the wrapper closed or touching the underlying stream; on
flush success set `closed`, close the underlying stream and return the
underlying close result `ce`. -/
def NagleWrapper.close (w : NagleWrapper) (s : UStream) (m : Nat) (e : Option GoErr)
    (ce : Option GoErr) : NagleWrapper × UStream × Option GoErr :=
  if w.closed then (w, s, some .closedPipe)
  else
    match flushLocked w s m e with
    | (w1, s1, _, some err) => (w1, s1, some err)
    | (w1, s1, _, none) =>
        ({ w1 with closed := true }, { s1 with uclosed := true }, ce)

/-- One read from the underlying stream, modelled after
`MockReadWriteCloser.Read` in `src/nagle_test.go`: a closed stream returns
`(0, io.ErrClosedPipe)`; otherwise `bytes.Buffer.Read` into a destination of
capacity `pLen` (empty buffer: `(0, nil)` for `pLen = 0`, else `(0, io.EOF)`;
otherwise the first `min pLen len` bytes are consumed and returned). -/
def UStream.read (s : UStream) (pLen : Nat) : UStream × List Nat × Nat × Option GoErr :=
  if s.uclosed then (s, [], 0, some .closedPipe)
  else if s.ubuf.length = 0 then
    if pLen = 0 then (s, [], 0, none) else (s, [], 0, some .eof)
  else
    let n := min pLen s.ubuf.length
    ({ s with ubuf := s.ubuf.drop n }, s.ubuf.take n, n, none)

/-- `Read` from `src/nagle.go`: a pure pass-through to the underlying
stream's read, ignoring the wrapper's own state entirely. -/
def NagleWrapper.read (w : NagleWrapper) (s : UStream) (pLen : Nat) :
    UStream × List Nat × Nat × Option GoErr :=
  let _ := w
  s.read pLen

/-- One iteration of the `handleFlush` background goroutine after the timer
fires (`src/nagle.go`): with the lock held, exit if closed, otherwise flush
when the buffer is non-empty (the flush result is discarded). -/
def timerFire (w : NagleWrapper) (s : UStream) (m : Nat) (e : Option GoErr) :
    NagleWrapper × UStream :=
  if w.closed then (w, s)
  else if w.buffer.length > 0 then
    let r := flushLocked w s m e
    (r.1, r.2.1)
  else (w, s)

/-- An operation applied to a wrapper/stream pair, together with the
environment's choice of underlying-stream responses: `(m, e)` for the one
underlying write a flush may perform, `ce` for the underlying close. -/
inductive Op where
  | write (data : List Nat) (m : Nat) (e : Option GoErr)
  | closeOp (m : Nat) (e : Option GoErr) (ce : Option GoErr)
  | timer (m : Nat) (e : Option GoErr)
  | readOp (pLen : Nat)
deriving DecidableEq, Repr

/-- Apply one operation, discarding return values and keeping the state. -/
def applyOp (ws : NagleWrapper × UStream) : Op → NagleWrapper × UStream
  | .write data m e => let r := ws.1.write ws.2 data m e; (r.1, r.2.1)
  | .closeOp m e ce => let r := ws.1.close ws.2 m e ce; (r.1, r.2.1)
  | .timer m e => timerFire ws.1 ws.2 m e
  | .readOp pLen => (ws.1, (ws.1.read ws.2 pLen).1)

/-- Run a list of operations in order. -/
def runOps (ws : NagleWrapper × UStream) : List Op → NagleWrapper × UStream
  | [] => ws
  | op :: rest => runOps (applyOp ws op) rest

/-- Whether an operation's underlying-write response is "fully accepting"
whenever the operation actually triggers a flush of a non-empty buffer:
the underlying stream accepts the whole offered chunk without error. -/
def fullRespB (ws : NagleWrapper × UStream) : Op → Bool
  | .write data m e =>
      ws.1.closed || decide (((ws.1.buffer ++ data).length : Int) < ws.1.bufferSize)
        || (decide (m = (ws.1.buffer ++ data).length) && decide (e = none))
  | .closeOp m e _ =>
      ws.1.closed || decide (ws.1.buffer.length = 0)
        || (decide (m = ws.1.buffer.length) && decide (e = none))
  | .timer m e =>
      ws.1.closed || decide (ws.1.buffer.length = 0)
        || (decide (m = ws.1.buffer.length) && decide (e = none))
  | .readOp _ => true

/-- Whether every operation along a run is fully accepting in the sense of
`fullRespB`, evaluated at the state it executes in. -/
def runFullB (ws : NagleWrapper × UStream) : List Op → Bool
  | [] => true
  | op :: rest => fullRespB ws op && runFullB (applyOp ws op) rest

/-! ### Basic lemmas about `flushLocked` -/

theorem flushLocked_closed_eq (w : NagleWrapper) (s : UStream) (m : Nat) (e : Option GoErr) :
    (flushLocked w s m e).1.closed = w.closed := by
  unfold flushLocked
  split <;> rfl

theorem flushLocked_bufferSize_eq (w : NagleWrapper) (s : UStream) (m : Nat) (e : Option GoErr) :
    (flushLocked w s m e).1.bufferSize = w.bufferSize := by
  unfold flushLocked
  split <;> rfl

theorem flushLocked_uclosed_eq (w : NagleWrapper) (s : UStream) (m : Nat) (e : Option GoErr) :
    (flushLocked w s m e).2.1.uclosed = s.uclosed := by
  unfold flushLocked
  split <;> rfl

theorem flushLocked_none_buffer (w : NagleWrapper) (s : UStream) (m : Nat) (e : Option GoErr)
    (h : (flushLocked w s m e).2.2.2 = none) : (flushLocked w s m e).1.buffer = [] := by
  by_cases hb : w.buffer.length = 0
  · simp [flushLocked, hb, List.length_eq_zero.mp hb]
  · cases e with
    | some err => simp [flushLocked, bufferWriteTo, hb] at h
    | none =>
        by_cases hm : m = w.buffer.length
        · simp [flushLocked, bufferWriteTo, hb, hm]
        · simp [flushLocked, bufferWriteTo, hb, hm] at h

theorem flushLocked_full (w : NagleWrapper) (s : UStream) (hne : w.buffer.length ≠ 0) :
    flushLocked w s w.buffer.length none =
      ({ w with buffer := [] }, { s with ubuf := s.ubuf ++ w.buffer },
        w.buffer.length, none) := by
  simp [flushLocked, bufferWriteTo, hne]

theorem flushLocked_buffer_le (w : NagleWrapper) (s : UStream) (m : Nat) (e : Option GoErr) :
    (flushLocked w s m e).1.buffer.length ≤ w.buffer.length := by
  by_cases hb : w.buffer.length = 0
  · simp [flushLocked, hb]
  · cases e with
    | some err =>
        simp only [flushLocked, bufferWriteTo, hb, if_false, if_neg hb]
        simp [List.length_drop]
    | none =>
        by_cases hm : m = w.buffer.length
        · simp [flushLocked, bufferWriteTo, hb, hm]
        · simp only [flushLocked, bufferWriteTo, hb, hm, if_false, if_neg hb]
          simp [List.length_drop]

theorem write_below (w : NagleWrapper) (s : UStream) (data : List Nat) (m : Nat)
    (e : Option GoErr) (hc : w.closed = false)
    (hlt : ((w.buffer ++ data).length : Int) < w.bufferSize) :
    w.write s data m e = ({ w with buffer := w.buffer ++ data }, s, data.length, none) := by
  have hnge : ¬ (w.bufferSize ≤ (w.buffer.length : Int) + (data.length : Int)) := by
    push_cast [List.length_append] at hlt
    omega
  simp [NagleWrapper.write, hc, hnge]

/-! ### Claim theorems -/

/-- C2: for every open wrapper and every `Write(data)` call for which the
buffer length after appending `data` stays strictly below `bufferSize`,
`Write` returns `(len(data), nil)`, the underlying stream is untouched, and
the data stays buffered (appended to the wrapper's buffer). -/
theorem write_below_threshold_buffers (w : NagleWrapper) (s : UStream) (data : List Nat)
    (m : Nat) (e : Option GoErr) (hopen : w.closed = false)
    (hlt : ((w.buffer ++ data).length : Int) < w.bufferSize) :
    w.write s data m e = ({ w with buffer := w.buffer ++ data }, s, data.length, none) :=
  write_below w s data m e hopen hlt

theorem write_below_threshold_buffers_w :
    (⟨[0], 10, false⟩ : NagleWrapper).closed = false ∧
    ((([0] : List Nat) ++ [1, 2]).length : Int) < 10 ∧
    NagleWrapper.write ⟨[0], 10, false⟩ ⟨[], false⟩ [1, 2] 0 none
      = (⟨[0, 1, 2], 10, false⟩, ⟨[], false⟩, 2, none) :=
  ⟨by decide, by decide,
    write_below_threshold_buffers ⟨[0], 10, false⟩ ⟨[], false⟩ [1, 2] 0 none
      (by decide) (by decide)⟩

/-- C10: for every wrapper whose `closed` flag is true, `Write(data)` returns
`(0, io.ErrClosedPipe)` and leaves both the wrapper and the underlying stream
completely unchanged: the closed check precedes any append. -/
theorem write_on_closed_rejects (w : NagleWrapper) (s : UStream) (data : List Nat)
    (m : Nat) (e : Option GoErr) (hc : w.closed = true) :
    w.write s data m e = (w, s, 0, some .closedPipe) := by
  simp [NagleWrapper.write, hc]

theorem write_on_closed_rejects_w :
    (⟨[], 5, true⟩ : NagleWrapper).closed = true ∧
    NagleWrapper.write ⟨[], 5, true⟩ ⟨[4], false⟩ [9, 9] 0 none
      = (⟨[], 5, true⟩, ⟨[4], false⟩, 0, some .closedPipe) :=
  ⟨rfl, write_on_closed_rejects ⟨[], 5, true⟩ ⟨[4], false⟩ [9, 9] 0 none rfl⟩

/-- C5: for every flush in which the underlying write accepts `m` bytes with
`m` smaller than the buffered amount, exactly the accepted prefix is removed
from the buffer and handed to the underlying stream, the remainder stays
buffered, and no byte is lost or duplicated (the stream's bytes followed by
the remaining buffer equal the original stream bytes followed by the original
buffer). -/
theorem flush_accepting_fewer_keeps_remainder (w : NagleWrapper) (s : UStream) (m : Nat)
    (e : Option GoErr) (hm : m < w.buffer.length) :
    (flushLocked w s m e).1.buffer = w.buffer.drop m ∧
    (flushLocked w s m e).2.1.ubuf = s.ubuf ++ w.buffer.take m ∧
    (flushLocked w s m e).2.2.1 = m ∧
    (flushLocked w s m e).2.1.ubuf ++ (flushLocked w s m e).1.buffer
      = s.ubuf ++ w.buffer := by
  have hb : ¬ w.buffer.length = 0 := by omega
  have hm' : ¬ m = w.buffer.length := by omega
  cases e with
  | some err =>
      simp [flushLocked, bufferWriteTo, hb, List.append_assoc, List.take_append_drop]
  | none =>
      simp [flushLocked, bufferWriteTo, hb, hm', List.append_assoc, List.take_append_drop]

theorem flush_accepting_fewer_keeps_remainder_w :
    1 < ([1, 2, 3] : List Nat).length ∧
    ((flushLocked ⟨[1, 2, 3], 3, false⟩ ⟨[9], false⟩ 1 none).1.buffer
        = ([1, 2, 3] : List Nat).drop 1 ∧
      (flushLocked ⟨[1, 2, 3], 3, false⟩ ⟨[9], false⟩ 1 none).2.1.ubuf
        = [9] ++ ([1, 2, 3] : List Nat).take 1 ∧
      (flushLocked ⟨[1, 2, 3], 3, false⟩ ⟨[9], false⟩ 1 none).2.2.1 = 1 ∧
      (flushLocked ⟨[1, 2, 3], 3, false⟩ ⟨[9], false⟩ 1 none).2.1.ubuf
          ++ (flushLocked ⟨[1, 2, 3], 3, false⟩ ⟨[9], false⟩ 1 none).1.buffer
        = [9] ++ [1, 2, 3]) :=
  ⟨by decide, flush_accepting_fewer_keeps_remainder ⟨[1, 2, 3], 3, false⟩ ⟨[9], false⟩ 1 none (by decide)⟩

/-- C6: for every open wrapper, if the final flush performed by `Close`
returns an error, `Close` returns that error, the `closed` flag remains
false, and the underlying stream is not closed (so a later `Close` can retry
the flush); the wrapper/stream state is exactly the post-flush state. -/
theorem close_flush_error_keeps_open (w : NagleWrapper) (s : UStream) (m : Nat)
    (e : Option GoErr) (ce : Option GoErr) (er : GoErr)
    (hopen : w.closed = false)
    (herr : (flushLocked w s m e).2.2.2 = some er) :
    (w.close s m e ce).2.2 = some er ∧
    (w.close s m e ce).1.closed = false ∧
    (w.close s m e ce).2.1.uclosed = s.uclosed ∧
    (w.close s m e ce).1 = (flushLocked w s m e).1 ∧
    (w.close s m e ce).2.1 = (flushLocked w s m e).2.1 := by
  rcases hq : flushLocked w s m e with ⟨w1, s1, n, err⟩
  have h1 : w1.closed = false := by
    have h := flushLocked_closed_eq w s m e
    rw [hq] at h
    simpa [hopen] using h
  have h2 : s1.uclosed = s.uclosed := by
    have h := flushLocked_uclosed_eq w s m e
    rw [hq] at h
    simpa using h
  rw [hq] at herr
  simp only at herr
  subst herr
  simp [NagleWrapper.close, hopen, hq, h1, h2]

theorem close_flush_error_keeps_open_w :
    (⟨[3], 5, false⟩ : NagleWrapper).closed = false ∧
    (flushLocked ⟨[3], 5, false⟩ ⟨[], false⟩ 0 (some (GoErr.ioErr 7))).2.2.2
      = some (GoErr.ioErr 7) ∧
    ((NagleWrapper.close ⟨[3], 5, false⟩ ⟨[], false⟩ 0 (some (GoErr.ioErr 7)) none).2.2
        = some (GoErr.ioErr 7) ∧
      (NagleWrapper.close ⟨[3], 5, false⟩ ⟨[], false⟩ 0 (some (GoErr.ioErr 7)) none).1.closed
        = false ∧
      (NagleWrapper.close ⟨[3], 5, false⟩ ⟨[], false⟩ 0 (some (GoErr.ioErr 7)) none).2.1.uclosed
        = (⟨[], false⟩ : UStream).uclosed ∧
      (NagleWrapper.close ⟨[3], 5, false⟩ ⟨[], false⟩ 0 (some (GoErr.ioErr 7)) none).1
        = (flushLocked ⟨[3], 5, false⟩ ⟨[], false⟩ 0 (some (GoErr.ioErr 7))).1 ∧
      (NagleWrapper.close ⟨[3], 5, false⟩ ⟨[], false⟩ 0 (some (GoErr.ioErr 7)) none).2.1
        = (flushLocked ⟨[3], 5, false⟩ ⟨[], false⟩ 0 (some (GoErr.ioErr 7))).2.1) :=
  ⟨by decide, by decide,
    close_flush_error_keeps_open ⟨[3], 5, false⟩ ⟨[], false⟩ 0 (some (GoErr.ioErr 7)) none
      (GoErr.ioErr 7) (by decide) (by decide)⟩

/-- C8: the constructor performs no validation: called with
`bufferSize = 0` (or negative) and non-positive `flushTimeout`, it returns a
usable open wrapper instead of failing, and a subsequent `Write` on that
wrapper even succeeds.  This contradicts the claim that construction fails
for `bufferSize ≤ 0` or `flushTimeout ≤ 0`. -/
theorem newNagleWrapper_accepts_nonpositive_config :
    NewNagleWrapper 0 1 = { buffer := [], bufferSize := 0, closed := false } ∧
    ((NewNagleWrapper 0 1).write ⟨[], false⟩ [5] 1 none).2.2.2 = none ∧
    ((NewNagleWrapper (-3) 0).write ⟨[], false⟩ [5] 1 none).2.2.2 = none := by
  decide

/-- C4 counterexample: starting from a fresh wrapper with `bufferSize = 1`,
a single `Write` whose triggered flush is refused by the underlying stream
(0 bytes accepted, an error returned) leaves the wrapper — with no flush in
progress — holding a buffer of length 1, i.e. NOT strictly below
`bufferSize`. -/
theorem write_failed_flush_breaks_bound :
    ¬ (((runOps (NewNagleWrapper 1 1, ⟨[], false⟩)
          [Op.write [7] 0 (some (GoErr.ioErr 0))]).1.buffer.length : Int)
        < (runOps (NewNagleWrapper 1 1, ⟨[], false⟩)
            [Op.write [7] 0 (some (GoErr.ioErr 0))]).1.bufferSize) := by
  decide

/-- C3: for every open wrapper with a non-empty buffer (and an open
underlying stream), whenever `Close` ends with the underlying stream closed,
the stream has received all remaining buffered bytes beforehand; and `Close`
returns `nil` only when the final flush fully succeeded (`e = none` and all
`w.buffer.length` bytes accepted) and the underlying close returned `nil`. -/
theorem close_flushes_before_underlying_close (w : NagleWrapper) (s : UStream)
    (m : Nat) (e : Option GoErr) (ce : Option GoErr)
    (hopen : w.closed = false) (hne : w.buffer ≠ []) (hso : s.uclosed = false) :
    ((w.close s m e ce).2.1.uclosed = true →
      (w.close s m e ce).2.1.ubuf = s.ubuf ++ w.buffer) ∧
    ((w.close s m e ce).2.2 = none → e = none ∧ m = w.buffer.length ∧ ce = none) := by
  have hb : ¬ w.buffer.length = 0 := by simpa [List.length_eq_zero] using hne
  cases e with
  | some er =>
      have hfl : flushLocked w s m (some er)
          = ({ w with buffer := w.buffer.drop m },
             { s with ubuf := s.ubuf ++ w.buffer.take m }, m, some er) := by
        simp [flushLocked, bufferWriteTo, hb]
      simp [NagleWrapper.close, hopen, hfl, hso]
  | none =>
      by_cases hm : m = w.buffer.length
      · subst hm
        have hfl := flushLocked_full w s hb
        simp [NagleWrapper.close, hopen, hfl]
      · have hfl : flushLocked w s m none
            = ({ w with buffer := w.buffer.drop m },
               { s with ubuf := s.ubuf ++ w.buffer.take m }, m, some .shortWrite) := by
          simp [flushLocked, bufferWriteTo, hb, hm]
        simp [NagleWrapper.close, hopen, hfl, hso]

theorem close_flushes_before_underlying_close_w :
    (⟨[1, 2], 9, false⟩ : NagleWrapper).closed = false ∧
    (⟨[1, 2], 9, false⟩ : NagleWrapper).buffer ≠ [] ∧
    (⟨[7], false⟩ : UStream).uclosed = false ∧
    (((NagleWrapper.close ⟨[1, 2], 9, false⟩ ⟨[7], false⟩ 2 none none).2.1.uclosed = true →
        (NagleWrapper.close ⟨[1, 2], 9, false⟩ ⟨[7], false⟩ 2 none none).2.1.ubuf
          = [7] ++ [1, 2]) ∧
      ((NagleWrapper.close ⟨[1, 2], 9, false⟩ ⟨[7], false⟩ 2 none none).2.2 = none →
        (none : Option GoErr) = none ∧ 2 = ([1, 2] : List Nat).length ∧
          (none : Option GoErr) = none)) :=
  ⟨by decide, by decide, by decide,
    close_flushes_before_underlying_close ⟨[1, 2], 9, false⟩ ⟨[7], false⟩ 2 none none
      (by decide) (by decide) (by decide)⟩

/-- C7: after a `Close` that returned `nil`, every later `Write` returns
`(0, io.ErrClosedPipe)` without accepting bytes or changing state, every
later `Close` returns `io.ErrClosedPipe`, and every later `Read` fails with
the underlying stream's closed error `(0, io.ErrClosedPipe)`. -/
theorem post_close_operations_fail (w : NagleWrapper) (s : UStream) (m : Nat)
    (e : Option GoErr) (ce : Option GoErr)
    (hopen : w.closed = false)
    (hsucc : (w.close s m e ce).2.2 = none) :
    (∀ s2 data m2 e2, (w.close s m e ce).1.write s2 data m2 e2
        = ((w.close s m e ce).1, s2, 0, some GoErr.closedPipe)) ∧
    (∀ s2 m2 e2 ce2, (w.close s m e ce).1.close s2 m2 e2 ce2
        = ((w.close s m e ce).1, s2, some GoErr.closedPipe)) ∧
    (∀ pLen, (w.close s m e ce).1.read (w.close s m e ce).2.1 pLen
        = ((w.close s m e ce).2.1, [], 0, some GoErr.closedPipe)) := by
  rcases hq : flushLocked w s m e with ⟨w1, s1, n, err⟩
  cases err with
  | some er => simp [NagleWrapper.close, hopen, hq] at hsucc
  | none =>
      have hcl : w.close s m e ce
          = ({ w1 with closed := true }, { s1 with uclosed := true }, ce) := by
        simp [NagleWrapper.close, hopen, hq]
      rw [hcl]
      refine ⟨fun s2 data m2 e2 => ?_, fun s2 m2 e2 ce2 => ?_, fun pLen => ?_⟩
      · simp [NagleWrapper.write]
      · simp [NagleWrapper.close]
      · simp [NagleWrapper.read, UStream.read]

theorem post_close_operations_fail_w :
    (⟨[], 4, false⟩ : NagleWrapper).closed = false ∧
    (NagleWrapper.close ⟨[], 4, false⟩ ⟨[], false⟩ 0 none none).2.2 = none ∧
    (NagleWrapper.close ⟨[], 4, false⟩ ⟨[], false⟩ 0 none none).1.write
        ⟨[], false⟩ [1] 0 none
      = ((NagleWrapper.close ⟨[], 4, false⟩ ⟨[], false⟩ 0 none none).1,
          ⟨[], false⟩, 0, some GoErr.closedPipe) ∧
    (NagleWrapper.close ⟨[], 4, false⟩ ⟨[], false⟩ 0 none none).1.close
        ⟨[], false⟩ 0 none none
      = ((NagleWrapper.close ⟨[], 4, false⟩ ⟨[], false⟩ 0 none none).1,
          ⟨[], false⟩, some GoErr.closedPipe) ∧
    (NagleWrapper.close ⟨[], 4, false⟩ ⟨[], false⟩ 0 none none).1.read
        (NagleWrapper.close ⟨[], 4, false⟩ ⟨[], false⟩ 0 none none).2.1 3
      = ((NagleWrapper.close ⟨[], 4, false⟩ ⟨[], false⟩ 0 none none).2.1,
          [], 0, some GoErr.closedPipe) :=
  ⟨by decide, by decide,
    (post_close_operations_fail ⟨[], 4, false⟩ ⟨[], false⟩ 0 none none
      (by decide) (by decide)).1 ⟨[], false⟩ [1] 0 none,
    (post_close_operations_fail ⟨[], 4, false⟩ ⟨[], false⟩ 0 none none
      (by decide) (by decide)).2.1 ⟨[], false⟩ 0 none none,
    (post_close_operations_fail ⟨[], 4, false⟩ ⟨[], false⟩ 0 none none
      (by decide) (by decide)).2.2 3⟩

/-! ### Runs of buffered writes -/

theorem flushLocked_none_ubuf (w : NagleWrapper) (s : UStream) (m : Nat) (e : Option GoErr)
    (hne : ¬ w.buffer.length = 0)
    (h : (flushLocked w s m e).2.2.2 = none) :
    (flushLocked w s m e).2.1.ubuf = s.ubuf ++ w.buffer := by
  cases e with
  | some er => simp [flushLocked, bufferWriteTo, hne] at h
  | none =>
      by_cases hm : m = w.buffer.length
      · subst hm
        simp [flushLocked, bufferWriteTo, hne]
      · simp [flushLocked, bufferWriteTo, hne, hm] at h

theorem runOps_writes_below (datas : List (List Nat)) (w : NagleWrapper) (s : UStream)
    (hc : w.closed = false)
    (hsum : (w.buffer.length : Int) + ((datas.map List.length).sum : Int) < w.bufferSize) :
    runOps (w, s) (datas.map fun d => Op.write d 0 none)
      = ({ w with buffer := w.buffer ++ datas.flatten }, s) := by
  induction datas generalizing w with
  | nil => simp [runOps]
  | cons d ds ih =>
      simp only [List.map_cons, List.sum_cons, Nat.cast_add] at hsum
      have hd : ((w.buffer ++ d).length : Int) < w.bufferSize := by
        rw [List.length_append, Nat.cast_add]
        omega
      have happ : applyOp (w, s) (Op.write d 0 none) = ({ w with buffer := w.buffer ++ d }, s) := by
        simp [applyOp, write_below w s d 0 none hc hd]
      have hsum' : (((w.buffer ++ d).length : Int))
          + ((ds.map List.length).sum : Int) < w.bufferSize := by
        rw [List.length_append, Nat.cast_add]
        omega
      simp only [List.map_cons, runOps]
      rw [happ, ih { w with buffer := w.buffer ++ d } hc hsum']
      simp [List.append_assoc]

/-- C1: starting from a fresh wrapper with `bufferSize = B > 0`, for a
sequence of buffered writes whose cumulative byte count stays below `B`
followed by a write that first reaches `B` (no timer fire in between), if
every write returns a nil error then the underlying stream has received no
bytes before the final write, and immediately after the final write it has
received exactly the concatenation of all the written bytes. -/
theorem writes_reaching_threshold_flush_concatenation (B T : Int) (s0 : UStream)
    (datas : List (List Nat)) (last : List Nat) (m : Nat) (e : Option GoErr)
    (_hB : 0 < B)
    (hbelow : (((datas.map List.length).sum : Int)) < B)
    (hreach : B ≤ ((datas.map List.length).sum : Int) + (last.length : Int))
    (hsucc : ((runOps (NewNagleWrapper B T, s0)
        (datas.map fun d => Op.write d 0 none)).1.write s0 last m e).2.2.2 = none) :
    (∀ j : Nat, (runOps (NewNagleWrapper B T, s0)
        ((datas.take j).map fun d => Op.write d 0 none)).2 = s0) ∧
    ((runOps (NewNagleWrapper B T, s0)
        (datas.map fun d => Op.write d 0 none)).1.write s0 last m e).2.1.ubuf
      = s0.ubuf ++ (datas.flatten ++ last) := by
  have hrun : runOps (NewNagleWrapper B T, s0) (datas.map fun d => Op.write d 0 none)
      = (⟨datas.flatten, B, false⟩, s0) := by
    rw [runOps_writes_below datas (NewNagleWrapper B T) s0 rfl
      (by simpa [NewNagleWrapper] using hbelow)]
    simp [NewNagleWrapper]
  constructor
  · intro j
    have hle : ((datas.take j).map List.length).sum ≤ (datas.map List.length).sum := by
      conv_rhs => rw [← List.take_append_drop j datas]
      rw [List.map_append, List.sum_append]
      exact Nat.le_add_right _ _
    have hj := runOps_writes_below (datas.take j) (NewNagleWrapper B T) s0 rfl (by
      have h1 : (((datas.take j).map List.length).sum : Int)
          ≤ ((datas.map List.length).sum : Int) := by exact_mod_cast hle
      simp only [NewNagleWrapper, List.length_nil, Nat.cast_zero]
      omega)
    rw [hj]
  · rw [hrun] at hsucc ⊢
    have hlen : ¬ (datas.flatten ++ last).length = 0 := by
      rw [List.length_append, List.length_flatten]
      omega
    have hcond : B ≤ ((datas.flatten.length : Int)) + (last.length : Int) := by
      rw [List.length_flatten]
      exact hreach
    have hwr : NagleWrapper.write ⟨datas.flatten, B, false⟩ s0 last m e
        = flushLocked ⟨datas.flatten ++ last, B, false⟩ s0 m e := by
      simp only [NagleWrapper.write]
      rw [if_neg (by simp), if_pos]
      rw [ge_iff_le, List.length_append, Nat.cast_add]
      exact hcond
    rw [hwr] at hsucc ⊢
    exact flushLocked_none_ubuf _ _ _ _ hlen hsucc

theorem writes_reaching_threshold_flush_concatenation_w :
    ((runOps (NewNagleWrapper 3 1, ⟨[], false⟩)
        (([[1], [2]].take 1).map fun d => Op.write d 0 none)).2 = (⟨[], false⟩ : UStream)) ∧
    ((runOps (NewNagleWrapper 3 1, ⟨[], false⟩)
        ([[1], [2]].map fun d => Op.write d 0 none)).1.write ⟨[], false⟩ [3] 3 none).2.1.ubuf
      = (⟨[], false⟩ : UStream).ubuf ++ ([[1], [2]].flatten ++ [3]) :=
  ⟨(writes_reaching_threshold_flush_concatenation 3 1 ⟨[], false⟩ [[1], [2]] [3] 3 none
      (by decide) (by decide) (by decide) (by decide)).1 1,
    (writes_reaching_threshold_flush_concatenation 3 1 ⟨[], false⟩ [[1], [2]] [3] 3 none
      (by decide) (by decide) (by decide) (by decide)).2⟩

/-! ### Reachability invariants -/

theorem applyOp_closed_empty (ws : NagleWrapper × UStream) (op : Op)
    (h : ws.1.closed = true → ws.1.buffer = []) :
    (applyOp ws op).1.closed = true → (applyOp ws op).1.buffer = [] := by
  rcases ws with ⟨w, s⟩
  cases op with
  | write data m e =>
      simp only [applyOp]
      unfold NagleWrapper.write
      split
      next hc => exact h
      next hc =>
        dsimp only
        split
        next hge =>
          intro hcl
          exfalso
          rw [flushLocked_closed_eq] at hcl
          exact hc hcl
        next hge =>
          intro hcl
          exact absurd hcl hc
  | closeOp m e ce =>
      simp only [applyOp]
      unfold NagleWrapper.close
      split
      next hc => exact h
      next hc =>
        split
        next w1 s1 n er heq =>
          intro hcl
          exfalso
          have hcw := flushLocked_closed_eq w s m e
          rw [heq] at hcw
          exact hc (hcw ▸ hcl)
        next w1 s1 n heq =>
          intro _
          have hb := flushLocked_none_buffer w s m e (by rw [heq])
          rw [heq] at hb
          exact hb
  | timer m e =>
      simp only [applyOp]
      unfold timerFire
      split
      next hc => exact h
      next hc =>
        split
        next hb =>
          intro hcl
          exfalso
          rw [flushLocked_closed_eq] at hcl
          exact hc hcl
        next hb => exact h
  | readOp pLen =>
      simp only [applyOp]
      exact h

theorem runOps_closed_empty (ops : List Op) (ws : NagleWrapper × UStream)
    (h : ws.1.closed = true → ws.1.buffer = []) :
    (runOps ws ops).1.closed = true → (runOps ws ops).1.buffer = [] := by
  induction ops generalizing ws with
  | nil => exact h
  | cons op rest ih =>
      simp only [runOps]
      exact ih _ (applyOp_closed_empty ws op h)

/-- C9: in every state reachable from a freshly constructed wrapper by any
sequence of operations, if the `closed` flag is true then the buffer is
empty: `closed` is only set after a final flush that fully drained the
buffer, and no operation appends bytes once `closed` is true. -/
theorem closed_implies_buffer_empty (B T : Int) (s0 : UStream) (ops : List Op)
    (hcl : (runOps (NewNagleWrapper B T, s0) ops).1.closed = true) :
    (runOps (NewNagleWrapper B T, s0) ops).1.buffer = [] :=
  runOps_closed_empty ops _ (fun hc => absurd hc Bool.false_ne_true) hcl

theorem closed_implies_buffer_empty_w :
    (runOps (NewNagleWrapper 5 1, ⟨[], false⟩)
      [Op.write [1] 0 none, Op.closeOp 1 none none]).1.closed = true ∧
    (runOps (NewNagleWrapper 5 1, ⟨[], false⟩)
      [Op.write [1] 0 none, Op.closeOp 1 none none]).1.buffer = [] :=
  ⟨by decide,
    closed_implies_buffer_empty 5 1 ⟨[], false⟩
      [Op.write [1] 0 none, Op.closeOp 1 none none] (by decide)⟩

theorem applyOp_bufferSize_eq (ws : NagleWrapper × UStream) (op : Op) :
    (applyOp ws op).1.bufferSize = ws.1.bufferSize := by
  rcases ws with ⟨w, s⟩
  cases op with
  | write data m e =>
      simp only [applyOp]
      unfold NagleWrapper.write
      split
      · rfl
      · dsimp only
        split
        · exact flushLocked_bufferSize_eq _ _ _ _
        · rfl
  | closeOp m e ce =>
      simp only [applyOp]
      unfold NagleWrapper.close
      split
      · rfl
      · split
        next w1 s1 n er heq =>
          have hcw := flushLocked_bufferSize_eq w s m e
          rw [heq] at hcw
          exact hcw
        next w1 s1 n heq =>
          have hcw := flushLocked_bufferSize_eq w s m e
          rw [heq] at hcw
          exact hcw
  | timer m e =>
      simp only [applyOp]
      unfold timerFire
      split
      · rfl
      · split
        · exact flushLocked_bufferSize_eq _ _ _ _
        · rfl
  | readOp pLen => rfl

theorem applyOp_buffer_bound (ws : NagleWrapper × UStream) (op : Op)
    (hpos : 0 < ws.1.bufferSize)
    (hinv : (ws.1.buffer.length : Int) < ws.1.bufferSize)
    (hfull : fullRespB ws op = true) :
    ((applyOp ws op).1.buffer.length : Int) < ws.1.bufferSize := by
  rcases ws with ⟨w, s⟩
  dsimp only at hpos hinv ⊢
  cases op with
  | write data m e =>
      simp only [applyOp]
      unfold NagleWrapper.write
      split
      next hc => exact hinv
      next hc =>
        dsimp only
        split
        next hge =>
          have hge' : w.bufferSize ≤ (w.buffer.length : Int) + (data.length : Int) := by
            rw [ge_iff_le, List.length_append, Nat.cast_add] at hge
            exact hge
          have hfull' : m = w.buffer.length + data.length ∧ e = none := by
            have hnlt : ¬ ((w.buffer.length : Int) + (data.length : Int) < w.bufferSize) :=
              not_lt.mpr hge'
            simpa [fullRespB, hc, hnlt] using hfull
          obtain ⟨hm, he⟩ := hfull'
          have hm2 : m = (w.buffer ++ data).length := by
            rw [List.length_append]
            exact hm
          subst hm2
          subst he
          have hb : ¬ (w.buffer ++ data).length = 0 := by
            rw [List.length_append]
            omega
          have hfl : flushLocked { w with buffer := w.buffer ++ data } s
              ((w.buffer ++ data).length) none
              = ({ w with buffer := ([] : List Nat) },
                 { s with ubuf := s.ubuf ++ (w.buffer ++ data) },
                 (w.buffer ++ data).length, none) := by
            simpa using flushLocked_full { w with buffer := w.buffer ++ data } s hb
          rw [hfl]
          simpa using hpos
        next hge =>
          have h1 : ¬ (w.bufferSize ≤ ((w.buffer ++ data).length : Int)) := by
            simpa [ge_iff_le] using hge
          simpa using not_le.mp h1
  | closeOp m e ce =>
      simp only [applyOp]
      unfold NagleWrapper.close
      split
      next hc => exact hinv
      next hc =>
        split
        next w1 s1 n er heq =>
          have hle := flushLocked_buffer_le w s m e
          rw [heq] at hle
          dsimp only at hle ⊢
          omega
        next w1 s1 n heq =>
          have hle := flushLocked_buffer_le w s m e
          rw [heq] at hle
          dsimp only at hle ⊢
          omega
  | timer m e =>
      simp only [applyOp]
      unfold timerFire
      split
      next hc => exact hinv
      next hc =>
        split
        next hb =>
          have hle := flushLocked_buffer_le w s m e
          dsimp only
          omega
        next hb => exact hinv
  | readOp pLen => exact hinv

theorem runOps_buffer_bound (ops : List Op) (ws : NagleWrapper × UStream)
    (hpos : 0 < ws.1.bufferSize)
    (hinv : (ws.1.buffer.length : Int) < ws.1.bufferSize)
    (hfull : runFullB ws ops = true) :
    ((runOps ws ops).1.buffer.length : Int) < ws.1.bufferSize := by
  induction ops generalizing ws with
  | nil => exact hinv
  | cons op rest ih =>
      simp only [runFullB, Bool.and_eq_true] at hfull
      simp only [runOps]
      have hbs := applyOp_bufferSize_eq ws op
      have := ih (applyOp ws op) (by rw [hbs]; exact hpos)
        (by rw [hbs]; exact applyOp_buffer_bound ws op hpos hinv hfull.1) hfull.2
      rw [hbs] at this
      exact this

/-- C4 (amended): every `Write` that makes the buffer reach or exceed the
threshold invokes a flush before returning; and provided `bufferSize > 0`
and every flush triggered along the run (by such a write, by `Close`, or by
the timer) is fully accepted by the underlying stream without error, the
buffer length stays strictly below `bufferSize` at every moment when no
flush is in progress.  (When an underlying write fails or accepts only part
of the buffer, the buffer can remain at or above the threshold — see the
counterexample.) -/
theorem buffer_below_threshold_when_flushes_succeed (B T : Int) (s0 : UStream)
    (ops : List Op) (hB : 0 < B)
    (hfull : runFullB (NewNagleWrapper B T, s0) ops = true) :
    ((runOps (NewNagleWrapper B T, s0) ops).1.buffer.length : Int) < B :=
  runOps_buffer_bound ops _ hB (by simpa using hB) hfull

theorem buffer_below_threshold_when_flushes_succeed_w :
    (0 : Int) < 2 ∧
    runFullB (NewNagleWrapper 2 1, ⟨[], false⟩)
      [Op.write [1] 0 none, Op.write [2, 3] 3 none] = true ∧
    ((runOps (NewNagleWrapper 2 1, ⟨[], false⟩)
      [Op.write [1] 0 none, Op.write [2, 3] 3 none]).1.buffer.length : Int) < 2 :=
  ⟨by decide, by decide,
    buffer_below_threshold_when_flushes_succeed 2 1 ⟨[], false⟩
      [Op.write [1] 0 none, Op.write [2, 3] 3 none] (by decide) (by decide)⟩

end Nagle
